import Mathlib

/-!
Verification of the `slidedeck` package (a cookiecutter research-slides
template) against its design document.

The development shallowly embeds the Python sources
`src/slidedeck/{add.py, build.py, history.py}`:

* pure string manipulation (slug generation, log-line parsing, QMD
  rendering, HTML rendering) becomes Lean functions on `String` /
  `List Char`;
* calls to the external `git` process are an explicit oracle argument
  (the outcome of `git log`, and a function giving the outcome of
  `git show <commit>:<path>` per commit);
* the scratch directory `.figure_history_temp` used by
  `generate_comparison` becomes an explicit association list of
  file name / byte content pairs threaded through the computation;
* Python exceptions become `Except`; an exception that the Python code
  does not catch is a propagated `Except.error`.

Strings are modelled at the level of characters (Python `str` slicing,
`split`, `strip`, … all operate on characters); byte contents of images
are `List UInt8`.
-/

namespace Slidedeck

open List

/-! ### Python string primitives

Character-level models of the Python `str` methods the sources use.
Only the ASCII behaviour matters here (ids, dates and git output are
ASCII in this code base), which these functions model exactly.
-/

/-- Characters Python's `str.strip()` removes (the ASCII whitespace set). -/
def isPySpace (c : Char) : Bool :=
  c = ' ' || c = '\t' || c = '\n' || c = '\r' || c = '\x0b' || c = '\x0c'

/-- Python `s.strip()` on the character list of `s`. -/
def pyStrip (cs : List Char) : List Char :=
  ((cs.dropWhile isPySpace).reverse.dropWhile isPySpace).reverse

/-- Python `s.rstrip()`. -/
def pyRstrip (s : String) : String :=
  String.mk ((s.data.reverse.dropWhile isPySpace).reverse)

/-- Python `s[:n]` (a slice of the first `n` characters). -/
def pyTake (n : Nat) (s : String) : String :=
  String.mk (s.data.take n)

/-- Python `s.replace(old, new)` for one-character `old` and `new`
(the only form the sources use). -/
def replaceChar (old new : Char) (s : String) : String :=
  String.mk (s.data.map (fun c => if c = old then new else c))

/-- Python `s.lower()` (ASCII). -/
def pyLower (s : String) : String :=
  String.mk (s.data.map Char.toLower)

/-- Python `s1 <= s2` on strings: lexicographic comparison of the code
point sequences, a proper prefix ordering below its extensions. -/
def charListLE : List Char → List Char → Bool
  | [], _ => true
  | _ :: _, [] => false
  | a :: as, b :: bs => if a = b then charListLE as bs else decide (a < b)

/-- Python `s1 <= s2` for strings. -/
def strLE (a b : String) : Bool :=
  charListLE a.data b.data

/-- Worker for Python `s.title()` (ASCII): a letter is uppercased when
the previous character is not a letter, lowercased otherwise; other
characters pass through and reset the word. -/
def pyTitleAux : Bool → List Char → List Char
  | _, [] => []
  | prevAlpha, c :: cs =>
    (if c.isAlpha then (if prevAlpha then c.toLower else c.toUpper) else c) ::
      pyTitleAux c.isAlpha cs

/-- Python `s.title()` (ASCII). -/
def pyTitle (s : String) : String :=
  String.mk (pyTitleAux false s.data)

/-- The decimal digit characters, as produced by Python `str(int)`. -/
def digitChar : Nat → Char
  | 0 => '0' | 1 => '1' | 2 => '2' | 3 => '3' | 4 => '4'
  | 5 => '5' | 6 => '6' | 7 => '7' | 8 => '8' | 9 => '9'
  | _ => '*'

/-- Decimal digits of `n`, most significant first; `fuel` bounds the
recursion and any `fuel > n` computes the exact digit string. -/
def natToDigitsAux : Nat → Nat → List Char
  | 0, _ => []
  | fuel + 1, n =>
    if n < 10 then [digitChar n]
    else natToDigitsAux fuel (n / 10) ++ [digitChar (n % 10)]

/-- Python `str(n)` for a nonnegative integer `n`: its decimal digits. -/
def pyStr (n : Nat) : String :=
  String.mk (natToDigitsAux (n + 1) n)

/-- Numeric value of a decimal digit character. -/
def charDigitVal (c : Char) : Nat := c.toNat - 48

/-- Value of a digit string (inverse of `natToDigitsAux`). -/
def digitsVal (cs : List Char) : Nat :=
  cs.foldl (fun a c => a * 10 + charDigitVal c) 0

/-! ### history.py — `get_figure_history`

```python
def get_figure_history(figure_path: str) -> list[dict]:
    try:
        result = subprocess.run(
            ["git", "log", "--format=%H|%ai|%s", "--follow", "--", figure_path],
            capture_output=True, text=True, check=True)
    except subprocess.CalledProcessError:
        return []
    history = []
    for line in result.stdout.strip().split("\n"):
        if not line:
            continue
        parts = line.split("|", 2)
        if len(parts) == 3:
            history.append({"commit": parts[0], "date": parts[1], "message": parts[2]})
    return history
```
-/

/-- One record of the `git log` query (keys `commit`, `date`, `message`
of the Python dict). -/
structure Revision where
  commit : String
  date : String
  message : String
deriving DecidableEq, Repr

/-- Outcome of the external `git log` process invocation, as seen by
`subprocess.run(..., check=True)`:

* `ok stdout` — the process ran and exited with status 0;
* `exitFailure` — the process ran and exited with a nonzero status, so
  `check=True` raises `subprocess.CalledProcessError`;
* `launchFailure` — the process could not be started at all (e.g. no
  `git` executable on `PATH`), so `subprocess.run` raises
  `OSError`/`FileNotFoundError` — a different exception class from
  `subprocess.CalledProcessError`. -/
inductive GitLogResult where
  | ok (stdout : String)
  | exitFailure
  | launchFailure
deriving DecidableEq, Repr

/-- Python `s.split(sep)` restricted to a single separator character and
at most `maxsplit` splits: the position of the first separator, i.e. the
text before it and the remainder after it (`none` when no separator
occurs). -/
def pyBreak (sep : Char) : List Char → Option (List Char × List Char)
  | [] => none
  | c :: cs =>
    if c = sep then some ([], cs)
    else
      match pyBreak sep cs with
      | none => none
      | some (a, b) => some (c :: a, b)

/-- Python `s.split(sep, maxsplit)` for a one-character separator: split
at the first separator at most `maxsplit` times, the final piece keeping
any further separators. -/
def pySplit (sep : Char) : Nat → List Char → List (List Char)
  | 0, cs => [cs]
  | n + 1, cs =>
    match pyBreak sep cs with
    | none => [cs]
    | some (a, b) => a :: pySplit sep n b

/-- Python `s.split("\n")` (no maxsplit): split at every newline. -/
def splitLines : List Char → List (List Char)
  | [] => [[]]
  | c :: cs =>
    if c = '\n' then [] :: splitLines cs
    else
      match splitLines cs with
      | [] => [[c]]
      | l :: ls => (c :: l) :: ls

/-- The body of the `for` loop of `get_figure_history` for one line:
`line.split("|", 2)` followed by the `len(parts) == 3` check. A parsed
line yields the Revision `(commit, date, message)` in field order. -/
def parseLine (line : List Char) : Option Revision :=
  match pySplit '|' 2 line with
  | [a, b, c] => some ⟨String.mk a, String.mk b, String.mk c⟩
  | _ => none

/-- The `for` loop of `get_figure_history`: empty lines are skipped
(`if not line: continue`), lines whose split has exactly three parts
append one Revision, all other lines are skipped. -/
def parseLogLines : List (List Char) → List Revision
  | [] => []
  | line :: rest =>
    if line = [] then parseLogLines rest
    else
      match parseLine line with
      | some rev => rev :: parseLogLines rest
      | none => parseLogLines rest

/-- Parse of the whole captured stdout:
`result.stdout.strip().split("\n")` fed through the loop. -/
def parseGitLogOutput (stdout : String) : List Revision :=
  parseLogLines (splitLines (pyStrip stdout.data))

/-- Model of `get_figure_history`, as a function of the `git log` process
outcome. A zero-exit run is parsed; a nonzero exit is the caught
`CalledProcessError` and gives `[]`; a launch failure raises an
exception that the `except subprocess.CalledProcessError` clause does
not catch, so it propagates to the caller (`Except.error`). -/
def get_figure_history : GitLogResult → Except Unit (List Revision)
  | GitLogResult.ok stdout => Except.ok (parseGitLogOutput stdout)
  | GitLogResult.exitFailure => Except.ok []
  | GitLogResult.launchFailure => Except.error ()

/-! ### history.py — extraction and comparison

```python
def extract_figure_version(figure_path: str, commit: str, output_path: Path) -> bool:
    try:
        result = subprocess.run(["git", "show", commit + ":" + figure_path],
                                capture_output=True, check=True)
        output_path.write_bytes(result.stdout)
        return True
    except subprocess.CalledProcessError:
        return False
```

The `git show` oracle maps a commit id to `some bytes` (zero exit,
captured stdout) or `none` (nonzero exit, i.e. the caught
`CalledProcessError`). The temporary directory `.figure_history_temp`
is an association list of file name / byte content pairs.
-/

/-- State of the `.figure_history_temp` directory: its files, as
name / byte-content pairs in creation order. -/
def TempDir : Type := List (String × List UInt8)

instance : DecidableEq TempDir := inferInstanceAs (DecidableEq (List (String × List UInt8)))

/-- Model of `output_path.write_bytes(content)`: overwrite the file if it already
exists, otherwise create it at the end of the directory listing. -/
def tdWrite (td : TempDir) (name : String) (bytes : List UInt8) : TempDir :=
  match td with
  | [] => [(name, bytes)]
  | p :: rest =>
    if p.1 = name then (name, bytes) :: rest
    else p :: tdWrite rest name bytes

/-- Read a file's bytes back (`open(version_path, "rb").read()`);
the caller only reads files it just wrote. -/
def tdRead (td : TempDir) (name : String) : List UInt8 :=
  match td with
  | [] => []
  | p :: rest => if p.1 = name then p.2 else tdRead rest name

/-- Model of `f.unlink()` for one directory entry. -/
def tdUnlink (td : TempDir) (name : String) : TempDir :=
  match td with
  | [] => []
  | p :: rest => if p.1 = name then rest else p :: tdUnlink rest name

/-- The cleanup loop `for f in temp_dir.iterdir(): f.unlink()`:
the listing is taken once, then every listed file is unlinked. -/
def tdCleanup (td : TempDir) : TempDir :=
  (td.map Prod.fst).foldl tdUnlink td

/-- Model of `extract_figure_version`: on a zero-exit `git show` the blob is
written to `name` inside the temp dir and the call returns `true`; a
nonzero exit is caught and the call returns `false` with the directory
unchanged. -/
def extract_figure_version (gitShow : String → Option (List UInt8))
    (commit : String) (td : TempDir) (name : String) : TempDir × Bool :=
  match gitShow commit with
  | some bytes => (tdWrite td name bytes, true)
  | none => (td, false)

/-- Standard base64 alphabet (what Python's `base64.b64encode` uses). -/
def b64Char (n : Nat) : Char :=
  "ABCDEFGHIJKLMNOPQRSTUVWXYZabcdefghijklmnopqrstuvwxyz0123456789+/".data.getD n '?'

/-- Model of `base64.b64encode(bytes).decode()`. -/
def b64encode : List UInt8 → List Char
  | [] => []
  | [b1] =>
    let n1 := b1.toNat
    [b64Char (n1 / 4), b64Char (n1 % 4 * 16), '=', '=']
  | [b1, b2] =>
    let n1 := b1.toNat
    let n2 := b2.toNat
    [b64Char (n1 / 4), b64Char (n1 % 4 * 16 + n2 / 16), b64Char (n2 % 16 * 4), '=']
  | b1 :: b2 :: b3 :: rest =>
    let n1 := b1.toNat
    let n2 := b2.toNat
    let n3 := b3.toNat
    b64Char (n1 / 4) :: b64Char (n1 % 4 * 16 + n2 / 16) ::
      b64Char (n2 % 16 * 4 + n3 / 64) :: b64Char (n3 % 64) :: b64encode rest

/-- One entry of the `versions` list built by `generate_comparison`:
1-based index, commit id truncated to 8 characters, timestamp, subject,
and the base64-encoded image bytes. -/
structure CompareVersion where
  index : Nat
  commit : String
  date : String
  message : String
  data : String
deriving DecidableEq, Repr

/-- The extraction loop of `generate_comparison`
(`for i, entry in enumerate(history): ...`), threading the temp
directory; `i` is the running `enumerate` index. A successful
extraction writes `v<i+1>_<commit[:8]>.png`, reads it back, and appends
a version entry; a failed one contributes nothing. -/
def extractVersions (gitShow : String → Option (List UInt8)) :
    Nat → TempDir → List Revision → TempDir × List CompareVersion
  | _, td, [] => (td, [])
  | i, td, entry :: rest =>
    let name := "v" ++ pyStr (i + 1) ++ "_" ++ pyTake 8 entry.commit ++ ".png"
    let er := extract_figure_version gitShow entry.commit td name
    if er.2 then
      let imgData := String.mk (b64encode (tdRead er.1 name))
      let v : CompareVersion :=
        ⟨i + 1, pyTake 8 entry.commit, entry.date, entry.message, imgData⟩
      let r := extractVersions gitShow (i + 1) er.1 rest
      (r.1, v :: r.2)
    else extractVersions gitShow (i + 1) er.1 rest

/-- The expected version entry for `enumerate` index `i` and revision
`rev` when its extraction succeeds. -/
def mkVersion (gitShow : String → Option (List UInt8)) (i : Nat) (rev : Revision) :
    CompareVersion :=
  ⟨i + 1, pyTake 8 rev.commit, rev.date, rev.message,
    String.mk (b64encode ((gitShow rev.commit).getD []))⟩

/-! ### history.py — `generate_comparison_html`

The page chrome, transcribed from the string-concatenation template in
the source (`html_parts`). Brace characters and apostrophes inside the
CSS are written with `\x7b`, `\x7d` and `\x27` escapes.
-/

/-- One version card (the `card` triple-quoted template of the loop in
`generate_comparison_html`). -/
def versionCard (v : CompareVersion) : String :=
  "\n        <div class=\"version-card\">\n            <h3>Version " ++ pyStr v.index ++
  "</h3>\n            <p class=\"meta\">\n                <span class=\"commit\">" ++ v.commit ++
  "</span>\n                <span class=\"date\">" ++ v.date ++
  "</span>\n            </p>\n            <p class=\"message\">" ++ v.message ++
  "</p>\n            <img src=\"data:image/png;base64," ++ v.data ++
  "\" alt=\"Version " ++ pyStr v.index ++
  "\">\n        </div>\n        "

/-- Segment `html_parts[0]`. -/
def htmlPart0 : String :=
  "<!DOCTYPE html>
<html>
<head>
    <title>Figure History: "

/-- Segment `html_parts[2]`: style sheet and opening of the body, between the
two occurrences of the figure path. -/
def htmlPart2 : String :=
  "</title>
    <style>
        body \x7b
            font-family: -apple-system, BlinkMacSystemFont, \x27Segoe UI\x27, Roboto, sans-serif;
            max-width: 1400px;
            margin: 0 auto;
            padding: 20px;
            background: #f5f5f5;
        \x7d
        h1 \x7b
            color: #333;
            border-bottom: 2px solid #007acc;
            padding-bottom: 10px;
        \x7d
        .versions \x7b
            display: grid;
            grid-template-columns: repeat(auto-fit, minmax(400px, 1fr));
            gap: 20px;
        \x7d
        .version-card \x7b
            background: white;
            border-radius: 8px;
            padding: 15px;
            box-shadow: 0 2px 4px rgba(0,0,0,0.1);
        \x7d
        .version-card h3 \x7b
            margin-top: 0;
            color: #007acc;
        \x7d
        .meta \x7b
            font-size: 0.9em;
            color: #666;
        \x7d
        .commit \x7b
            font-family: monospace;
            background: #f0f0f0;
            padding: 2px 6px;
            border-radius: 3px;
        \x7d
        .date \x7b
            margin-left: 10px;
        \x7d
        .message \x7b
            font-style: italic;
            color: #555;
        \x7d
        .version-card img \x7b
            max-width: 100%;
            border: 1px solid #ddd;
            border-radius: 4px;
        \x7d
    </style>
</head>
<body>
    <h1>Figure History: "

/-- Segment `html_parts[4]`. -/
def htmlPart4 : String :=
  "</h1>
    <p>"

/-- Segment `html_parts[6]`. -/
def htmlPart6 : String :=
  " versions found (newest first)</p>
    <div class=\"versions\">
        "

/-- Segment `html_parts[8]`. -/
def htmlPart8 : String :=
  "
    </div>
</body>
</html>
"

/-- Model of `generate_comparison_html`: the joined `html_parts`, with the
version cards joined in list order in the middle. -/
def generate_comparison_html (figure_path : String) (versions : List CompareVersion) :
    String :=
  htmlPart0 ++ figure_path ++ htmlPart2 ++ figure_path ++ htmlPart4 ++
    pyStr versions.length ++ htmlPart6 ++
    String.join (versions.map versionCard) ++ htmlPart8

/-! ### history.py — `generate_comparison`

```python
def generate_comparison(figure_path: str, output: str) -> None:
    history = get_figure_history(figure_path)
    if not history:
        click.echo("No git history found for " + figure_path)
        return
    if len(history) < 2:
        click.echo("Only one version found. Nothing to compare.")
        return
    temp_dir = Path(".figure_history_temp")
    temp_dir.mkdir(exist_ok=True)
    versions = []
    for i, entry in enumerate(history):
        version_path = temp_dir / ("v" + str(i + 1) + "_" + entry["commit"][:8] + ".png")
        if extract_figure_version(figure_path, entry["commit"], version_path):
            with open(version_path, "rb") as f:
                img_data = base64.b64encode(f.read()).decode()
            versions.append({...})
    html = generate_comparison_html(figure_path, versions)
    Path(output).write_text(html)
    for f in temp_dir.iterdir():
        f.unlink()
    temp_dir.rmdir()
    click.echo("Generated comparison: " + output)
    click.echo("Showing " + str(len(versions)) + " versions")
```
-/

/-- Observable result of one `generate_comparison` call: the parsed
history, the extracted versions, the written output artifact (path and
content) if any, the final state of `.figure_history_temp` (`none` when
the directory does not exist), and the `click.echo` messages. -/
structure CompareOutcome where
  history : List Revision
  versions : List CompareVersion
  artifact : Option (String × String)
  tempDir : Option TempDir
  echoed : List String
deriving DecidableEq

/-- Model of `generate_comparison`, as a function of the git oracle, the asset
path, the output filename, and the prior state of the temp directory
(`mkdir(exist_ok=True)` tolerates a leftover directory). The final
`temp_dir.rmdir()` raises `OSError` if the directory is somehow still
nonempty, modelled by the `Except.error` branch; an error from
`get_figure_history` (launch failure) also propagates. -/
def generate_comparison (gitLog : GitLogResult)
    (gitShow : String → Option (List UInt8)) (figure_path output : String)
    (initTemp : Option TempDir) : Except Unit CompareOutcome :=
  match get_figure_history gitLog with
  | Except.error e => Except.error e
  | Except.ok history =>
    if history = [] then
      Except.ok ⟨history, [], none, initTemp,
        ["No git history found for " ++ figure_path]⟩
    else if history.length < 2 then
      Except.ok ⟨history, [], none, initTemp,
        ["Only one version found. Nothing to compare."]⟩
    else
      let td0 : TempDir := initTemp.getD []
      let r := extractVersions gitShow 0 td0 history
      let html := generate_comparison_html figure_path r.2
      let td1 := tdCleanup r.1
      if td1 = ([] : TempDir) then
        Except.ok ⟨history, r.2, some (output, html), none,
          ["Generated comparison: " ++ output,
           "Showing " ++ pyStr r.2.length ++ " versions"]⟩
      else Except.error ()

/-! ### add.py — slide identifier allocation

```python
def generate_slide_id(title: str, created: str) -> str:
    slug = title.lower().replace(" ", "_")
    slug = "".join(c for c in slug if c.isalnum() or c == "_")
    return created + "_" + slug
```

and the collision handling inside `add_figure`:

```python
existing_ids = {s["id"] for s in registry.get("slides", [])}
if slide_id in existing_ids:
    counter = 2
    while slide_id + "_" + str(counter) in existing_ids:
        counter += 1
    slide_id = slide_id + "_" + str(counter)
```
-/

/-- Model of `generate_slide_id`. -/
def generate_slide_id (title created : String) : String :=
  let slug := replaceChar ' ' '_' (pyLower title)
  let slug2 := String.mk (slug.data.filter (fun c => c.isAlphanum || c = '_'))
  created ++ "_" ++ slug2

/-- The `while` collision loop of `add_figure`: the first counter `k ≥
counter` with `cand_k` free. `fuel` bounds the iteration count; any
`fuel > existing.length` reaches the loop's exit (see
`findCounter_correct` and `exists_free_counter`). -/
def findCounter (cand : String) (existing : List String) : Nat → Nat → Nat
  | 0, counter => counter
  | fuel + 1, counter =>
    if (cand ++ "_" ++ pyStr counter) ∈ existing then
      findCounter cand existing fuel (counter + 1)
    else counter

/-- The id actually persisted by `add_figure`: the candidate from
`generate_slide_id` when it is not taken, otherwise the candidate with
the `_<counter>` suffix found by the `while` loop starting at 2. -/
def allocateSlideId (title created : String) (existing : List String) : String :=
  let cand := generate_slide_id title created
  if cand ∈ existing then
    cand ++ "_" ++ pyStr (findCounter cand existing (existing.length + 1) 2)
  else cand

/-- Slug written the way the specification words it: the title
lower-cased, spaces replaced with underscores, and all characters that
are neither alphanumeric nor underscore stripped. Used to compare the
specification's contract with `generate_slide_id`. -/
def slugSpec (title : String) : String :=
  String.mk
    (((pyLower title).data.map (fun c => if c = ' ' then '_' else c)).filter
      (fun c => c.isAlphanum || c = '_'))

/-! ### build.py — registry model

```python
def build_slides_qmd(registry: dict) -> str: ...
def build_recent_qmd(registry: dict, count: int = 10) -> str: ...
```

`Registry`, `Topic` and `Slide` model the loaded `slides.yaml` tree with
exactly the fields the build functions read. Absent optional keys
(retrieved with `dict.get(key, default)` in the source) are the empty
string / empty list defaults: `Slide` fields stand for
`slide.get("figure", "")`, `slide.get("caption", "")`,
`slide.get("description", "")`, `slide.get("content", "")`,
`slide.get("notes", "")`; `Registry.title` is `None` when the key is
missing (`registry.get("title", "Research Figures")` supplies the
default) and `Registry.slides` stands for `registry.get("slides", [])`.
`registry["topics"]` is read unconditionally. -/

/-- One entry of `registry["topics"]`: `{id, name, order}`. -/
structure Topic where
  id : String
  name : String
  order : Int
deriving DecidableEq, Repr

/-- One entry of `registry["slides"]`. -/
structure Slide where
  id : String
  topic : String
  title : String
  caption : String
  description : String
  notes : String
  content : String
  figure : String
  created : String
deriving DecidableEq, Repr

/-- The loaded registry. -/
structure Registry where
  title : Option String
  topics : List Topic
  slides : List Slide
deriving DecidableEq, Repr

/-- Lookup in the dict `{t["id"]: t for t in registry["topics"]}`: a
Python dict comprehension keeps the last entry for a repeated key, hence
the reversed search. -/
def lookupTopic (ts : List Topic) (tid : String) : Option Topic :=
  ts.reverse.find? (fun t => t.id == tid)

/-- Model of `topic_order.get(topic_id, 999)`: the declared order of the topic,
or the sentinel 999 when no topic record carries this id. -/
def topicOrderKey (r : Registry) (tid : String) : Int :=
  match lookupTopic r.topics tid with
  | some t => t.order
  | none => 999

/-- Model of the display-name lookup
`topics.get(topic_id, {"name": topic_id.replace("_", " ").title()})["name"]`:
the declared display name, or the derived fallback. -/
def topicDisplayName (r : Registry) (tid : String) : String :=
  match lookupTopic r.topics tid with
  | some t => t.name
  | none => pyTitle (replaceChar '_' ' ' tid)

/-! ### build.py — grouping, ordering and rendering

Python's `sorted` / `list.sort` is a stable sort with respect to a
total preorder on keys. `List.insertionSort` is also stable and sorted
for such a relation, and any two stable sorted permutations of the same
list under the same total preorder coincide, so `List.insertionSort`
with the key relation is an exact model of the CPython sort.
`sorted(..., reverse=True)` reverses each comparison while preserving
stability, i.e. it is the stable sort under the flipped key relation. -/

/-- Key relation of `sorted(slides_by_topic.keys(), key=lambda x:
topic_order.get(x, 999))`. -/
def topicLE (r : Registry) (a b : String) : Prop :=
  topicOrderKey r a ≤ topicOrderKey r b

instance (r : Registry) : DecidableRel (topicLE r) :=
  fun _ _ => Int.decLe _ _

/-- Key relation of `topic_slides.sort(key=lambda s: s["created"],
reverse=True)` and of `sorted(slides, key=lambda s: s["created"],
reverse=True)`: creation date descending, ties equivalent. -/
def slideDescLE (a b : Slide) : Prop :=
  strLE b.created a.created = true

instance : DecidableRel slideDescLE :=
  fun _ _ => instDecidableEqBool _ _

/-- Model of `topic_slides.sort(key=..., reverse=True)` / `sorted(slides,
key=..., reverse=True)`: stable sort by creation date, newest first. -/
def sortSlidesDesc (l : List Slide) : List Slide :=
  l.insertionSort slideDescLE

/-- Insertion of one slide into the `slides_by_topic` dict: append to
the bucket of an existing key (position preserved, as for a Python
dict), or add a new key at the end. -/
def addToBuckets : List (String × List Slide) → String → Slide →
    List (String × List Slide)
  | [], tid, s => [(tid, [s])]
  | p :: bs, tid, s =>
    if p.1 = tid then (p.1, p.2 ++ [s]) :: bs
    else p :: addToBuckets bs tid s

/-- The grouping loop of `build_slides_qmd`: `slides_by_topic` as an
association list in key-insertion order, each bucket in slide-encounter
order. -/
def slidesByTopic (slides : List Slide) : List (String × List Slide) :=
  slides.foldl (fun bs s => addToBuckets bs s.topic s) []

/-- Lookup `slides_by_topic[topic_id]` (first — and only — binding of the key). -/
def lookupBuckets : List (String × List Slide) → String → Option (List Slide)
  | [], _ => none
  | p :: bs, tid => if p.1 = tid then some p.2 else lookupBuckets bs tid

/-- The bucket of slides rendered under one topic id. -/
def bucketOf (r : Registry) (tid : String) : List Slide :=
  (lookupBuckets (slidesByTopic r.slides) tid).getD []

/-- Model of `sorted(slides_by_topic.keys(), key=lambda x: topic_order.get(x, 999))`:
the order in which the deck emits its topic sections. -/
def deckTopicOrder (r : Registry) : List String :=
  ((slidesByTopic r.slides).map Prod.fst).insertionSort (topicLE r)

/-- Model of `_render_slide`: the lines appended for one slide's content block. -/
def renderSlide (slide : Slide) : List String :=
  (if slide.figure = "" then []
   else
     let caption := if slide.caption = "" then slide.description else slide.caption
     ["![](" ++ slide.figure ++ ")", ""] ++
       (if caption = "" then []
        else ["::: \x7b.caption\x7d", pyRstrip caption, ":::", ""])) ++
  (if slide.content = "" then [] else [pyRstrip slide.content, ""]) ++
  (if slide.notes = "" then [] else ["::: \x7b.notes\x7d", slide.notes, ":::", ""])

/-- The lines of one topic section of the deck: `# <name> {#<anchor>}`,
a blank, then for each slide of the bucket (newest first)
`## <title> {#<id>}`, a blank, and the slide's rendered block. -/
def topicSection (r : Registry) (tid : String) : List String :=
  ["# " ++ topicDisplayName r tid ++ " \x7b#" ++ replaceChar '_' '-' tid ++ "\x7d", ""] ++
    ((sortSlidesDesc (bucketOf r tid)).map
      (fun s => ["## " ++ s.title ++ " \x7b#" ++ s.id ++ "\x7d", ""] ++ renderSlide s)).flatten

/-- The fixed YAML front matter of `slides.qmd`. -/
def slidesHeader (title : String) : List String :=
  ["---", "title: \"" ++ title ++ "\"", "format:", "  revealjs:",
   "    theme: default", "    slide-number: true", "    fig-cap-location: bottom",
   "    margin: 0.05", "    scrollable: true", "css: styles.css", "---", ""]

/-- The placeholder body emitted when the registry has no slides. -/
def noSlidesPlaceholder (heading : String) : List String :=
  [heading, "", "No figures added yet.", "",
   "Run \x60slidedeck add\x60 to add your first figure."]

/-- Model of `build_slides_qmd`. -/
def build_slides_qmd (r : Registry) : String :=
  let lines := slidesHeader (r.title.getD "Research Figures")
  if r.slides = [] then
    String.intercalate "\n" (lines ++ noSlidesPlaceholder "# Welcome")
  else
    String.intercalate "\n"
      (lines ++ ((deckTopicOrder r).map (topicSection r)).flatten)

/-- The fixed YAML front matter of `recent.qmd` (no `margin` /
`scrollable` entries, fixed title). -/
def recentHeader : List String :=
  ["---", "title: \"Recent Figures\"", "format:", "  revealjs:",
   "    theme: default", "    slide-number: true", "    fig-cap-location: bottom",
   "css: styles.css", "---", ""]

/-- Model of `sorted(slides, key=lambda s: s["created"], reverse=True)[:count]`:
the slides shown in the recent digest, in digest order. -/
def recentSlides (r : Registry) (count : Nat) : List Slide :=
  (sortSlidesDesc r.slides).take count

/-- Model of `build_recent_qmd` (the `topics` dict it builds is dead code in the
source — never read — and is not modelled). -/
def build_recent_qmd (r : Registry) (count : Nat) : String :=
  if r.slides = [] then
    String.intercalate "\n" (recentHeader ++ noSlidesPlaceholder "# Recent Figures")
  else
    String.intercalate "\n"
      (recentHeader ++
        ((recentSlides r count).map (fun s => ["## " ++ s.title, ""] ++ renderSlide s)).flatten)

/-! ### Concrete fixtures

Small registries and histories used to instantiate the theorems at
concrete inputs. -/

/-- A slide record carrying only id, topic, title and creation date
(all other optional fields absent/empty). -/
def mkSlide (id topic title created : String) : Slide :=
  { id := id, topic := topic, title := title, caption := "", description := "",
    notes := "", content := "", figure := "", created := created }

/-- Registry with topics `intro` (order 1) and `results` (order 2) and
one slide in each, `results` slide first in file order. -/
def introResultsA : Registry :=
  { title := none,
    topics := [⟨"intro", "Intro", 1⟩, ⟨"results", "Results", 2⟩],
    slides := [mkSlide "s-res" "results" "Res" "2024-02-02",
               mkSlide "s-int" "intro" "Int" "2024-01-01"] }

/-- Same registry with the slides inserted in the opposite order. -/
def introResultsB : Registry :=
  { title := none,
    topics := [⟨"intro", "Intro", 1⟩, ⟨"results", "Results", 2⟩],
    slides := [mkSlide "s-int" "intro" "Int" "2024-01-01",
               mkSlide "s-res" "results" "Res" "2024-02-02"] }

/-- Registry whose only declared topic has order 1000 (larger than the
999 fallback) plus a slide carrying an undeclared topic id. -/
def sentinelReg : Registry :=
  { title := none,
    topics := [⟨"alpha", "Alpha", 1000⟩],
    slides := [mkSlide "s1" "alpha" "A" "2024-01-01",
               mkSlide "s2" "zz_topic" "Z" "2024-01-02"] }

/-- Registry with one declared topic of order 1 and a slide carrying an
undeclared topic id. -/
def mixedReg : Registry :=
  { title := none,
    topics := [⟨"t", "T", 1⟩],
    slides := [mkSlide "a" "t" "A" "2024-01-01",
               mkSlide "b" "zz_x" "B" "2024-01-02"] }

/-- Registry with three slides of one topic dated `2024-01-01`,
`2024-03-01`, `2024-02-01`, in that file order. -/
def datesReg : Registry :=
  { title := none,
    topics := [⟨"t", "T", 1⟩],
    slides := [mkSlide "d1" "t" "D1" "2024-01-01",
               mkSlide "d3" "t" "D3" "2024-03-01",
               mkSlide "d2" "t" "D2" "2024-02-01"] }

/-- A `git log` outcome with two well-formed revision lines. -/
def twoRevLog : GitLogResult :=
  GitLogResult.ok "aaaaaaaaaa|2024-01-01|m1\nbbbbbbbbbb|2024-01-02|m2"

/-- The history parsed from `twoRevLog`. -/
def twoRevHistory : List Revision :=
  [⟨"aaaaaaaaaa", "2024-01-01", "m1"⟩, ⟨"bbbbbbbbbb", "2024-01-02", "m2"⟩]

/-! ## Theorems

Supporting lemmas first, then one theorem per claim of the design
document (with a witness or counterexample where required). -/

theorem charDigitVal_digitChar (d : Nat) (hd : d < 10) :
    charDigitVal (digitChar d) = d := by
  interval_cases d <;> rfl

theorem digitsVal_append (l : List Char) (c : Char) :
    digitsVal (l ++ [c]) = 10 * digitsVal l + charDigitVal c := by
  simp [digitsVal, List.foldl_append, Nat.mul_comm]

theorem digitsVal_natToDigitsAux :
    ∀ fuel n, n < fuel → digitsVal (natToDigitsAux fuel n) = n := by
  intro fuel
  induction fuel with
  | zero => intro n h; omega
  | succ fuel ih =>
    intro n h
    by_cases h10 : n < 10
    · simp only [natToDigitsAux, if_pos h10, digitsVal, List.foldl]
      simp [charDigitVal_digitChar n h10]
    · have hdiv : n / 10 < fuel := by
        have : n / 10 < n := Nat.div_lt_self (by omega) (by omega)
        omega
      simp only [natToDigitsAux, if_neg h10, digitsVal_append, ih _ hdiv,
        charDigitVal_digitChar (n % 10) (Nat.mod_lt n (by omega))]
      omega

theorem pyStr_injective : Function.Injective pyStr := by
  intro m n h
  have hd : natToDigitsAux (m + 1) m = natToDigitsAux (n + 1) n :=
    congrArg String.data h
  have := digitsVal_natToDigitsAux (m + 1) m (Nat.lt_succ_self m)
  rw [hd, digitsVal_natToDigitsAux (n + 1) n (Nat.lt_succ_self n)] at this
  omega

theorem counter_suffix_injective (cand : String) :
    Function.Injective (fun k => cand ++ "_" ++ pyStr k) := by
  intro j k h
  apply pyStr_injective
  have hdata : (cand ++ "_").data ++ (pyStr j).data =
      (cand ++ "_").data ++ (pyStr k).data := by
    simpa [String.append_assoc] using congrArg String.data h
  exact congrArg String.mk (List.append_cancel_left hdata)

/-- Some counter in `[2, existing.length + 2]` yields a suffixed id that
is not among the existing ids (pigeonhole). -/
theorem exists_free_counter (cand : String) (existing : List String) :
    ∃ j, 2 ≤ j ∧ j ≤ existing.length + 2 ∧ (cand ++ "_" ++ pyStr j) ∉ existing := by
  by_contra hall
  push_neg at hall
  classical
  set L : List String :=
    (List.range (existing.length + 1)).map (fun i => cand ++ "_" ++ pyStr (i + 2)) with hL
  have hnodup : L.Nodup := by
    refine List.Nodup.map ?_ (List.nodup_range _)
    intro i j hij
    have := counter_suffix_injective cand hij
    omega
  have hsub : L ⊆ existing := by
    intro x hx
    rw [hL, List.mem_map] at hx
    obtain ⟨i, hi, rfl⟩ := hx
    rw [List.mem_range] at hi
    exact hall (i + 2) (by omega) (by omega)
  have hcard : L.length ≤ existing.length := by
    calc L.length = L.toFinset.card := (List.toFinset_card_of_nodup hnodup).symm
      _ ≤ existing.toFinset.card := by
          apply Finset.card_le_card
          intro x hx
          rw [List.mem_toFinset] at hx ⊢
          exact hsub hx
      _ ≤ existing.length := List.toFinset_card_le _
  have : L.length = existing.length + 1 := by simp [hL]
  omega

/-- The `while` loop computes the least free counter at or above its
start, provided some counter within `fuel` steps is free. -/
theorem findCounter_correct (cand : String) (existing : List String) :
    ∀ fuel counter,
      (∃ j, counter ≤ j ∧ j ≤ counter + fuel ∧ (cand ++ "_" ++ pyStr j) ∉ existing) →
      counter ≤ findCounter cand existing fuel counter ∧
        (cand ++ "_" ++ pyStr (findCounter cand existing fuel counter)) ∉ existing ∧
        ∀ j, counter ≤ j → j < findCounter cand existing fuel counter →
          (cand ++ "_" ++ pyStr j) ∈ existing := by
  intro fuel
  induction fuel with
  | zero =>
    intro counter hex
    obtain ⟨j, hj1, hj2, hj3⟩ := hex
    have : j = counter := by omega
    subst this
    exact ⟨Nat.le_refl _, hj3, fun k hk1 hk2 => by simp [findCounter] at hk2; omega⟩
  | succ fuel ih =>
    intro counter hex
    by_cases hmem : (cand ++ "_" ++ pyStr counter) ∈ existing
    · have hex' : ∃ j, counter + 1 ≤ j ∧ j ≤ counter + 1 + fuel ∧
          (cand ++ "_" ++ pyStr j) ∉ existing := by
        obtain ⟨j, hj1, hj2, hj3⟩ := hex
        refine ⟨j, ?_, by omega, hj3⟩
        rcases Nat.eq_or_lt_of_le hj1 with h | h
        · exact absurd hmem (h ▸ hj3)
        · omega
      obtain ⟨h1, h2, h3⟩ := ih (counter + 1) hex'
      rw [findCounter, if_pos hmem]
      refine ⟨by omega, h2, fun j hj1 hj2 => ?_⟩
      rcases Nat.eq_or_lt_of_le hj1 with h | h
      · exact h ▸ hmem
      · exact h3 j (by omega) hj2
    · rw [findCounter, if_neg hmem]
      exact ⟨Nat.le_refl _, hmem, fun j hj1 hj2 => by omega⟩

theorem charListLE_refl : ∀ l : List Char, charListLE l l = true
  | [] => rfl
  | _ :: as => by simp [charListLE, charListLE_refl as]

theorem charListLE_total : ∀ l₁ l₂ : List Char,
    charListLE l₁ l₂ = true ∨ charListLE l₂ l₁ = true := by
  intro l₁
  induction l₁ with
  | nil => intro l₂; left; rfl
  | cons a as ih =>
    intro l₂
    cases l₂ with
    | nil => right; rfl
    | cons b bs =>
      by_cases hab : a = b
      · subst hab
        rcases ih bs with h | h
        · left; simpa [charListLE] using h
        · right; simpa [charListLE] using h
      · rcases lt_or_gt_of_ne hab with h | h
        · left; simp [charListLE, hab, h]
        · right; simp [charListLE, Ne.symm hab, h]

theorem charListLE_trans : ∀ {l₁ l₂ l₃ : List Char},
    charListLE l₁ l₂ = true → charListLE l₂ l₃ = true → charListLE l₁ l₃ = true := by
  intro l₁
  induction l₁ with
  | nil => intro l₂ l₃ _ _; rfl
  | cons a as ih =>
    intro l₂ l₃ h12 h23
    cases l₂ with
    | nil => simp [charListLE] at h12
    | cons b bs =>
      cases l₃ with
      | nil => simp [charListLE] at h23
      | cons c cs =>
        by_cases hab : a = b
        · subst hab
          by_cases hbc : a = c
          · subst hbc
            simp only [charListLE, if_pos rfl] at h12 h23 ⊢
            exact ih h12 h23
          · simpa [charListLE, hbc] using (by simpa [charListLE, hbc] using h23)
        · by_cases hbc : b = c
          · subst hbc
            simpa [charListLE, hab] using (by simpa [charListLE, hab] using h12)
          · have h1 : a < b := by simpa [charListLE, hab] using h12
            have h2 : b < c := by simpa [charListLE, hbc] using h23
            have hac : a < c := lt_trans h1 h2
            simp [charListLE, ne_of_lt hac, hac]

instance : IsTotal Slide slideDescLE :=
  ⟨fun a b => by
    rcases charListLE_total b.created.data a.created.data with h | h
    · exact Or.inl h
    · exact Or.inr h⟩

instance : IsTrans Slide slideDescLE :=
  ⟨fun _ _ _ h12 h23 => charListLE_trans h23 h12⟩

instance (r : Registry) : IsTotal String (topicLE r) :=
  ⟨fun _ _ => Int.le_total _ _⟩

instance (r : Registry) : IsTrans String (topicLE r) :=
  ⟨fun _ _ _ h12 h23 => le_trans h12 h23⟩

/-- Stability of the modelled Python sort, in filtered form: a
predicate that only holds inside one equivalence class of the sort
relation selects the same subsequence before and after sorting. -/
theorem insertionSort_filter_stable {α : Type} (r : α → α → Prop) [DecidableRel r]
    (p : α → Bool) (hp : ∀ a b, p a = true → p b = true → r a b) :
    ∀ l : List α, (l.insertionSort r).filter p = l.filter p := by
  intro l
  induction l with
  | nil => rfl
  | cons x l ih =>
    rw [List.insertionSort, List.orderedInsert_eq_take_drop, List.filter_append]
    have hsplit : ((l.insertionSort r).takeWhile fun b => ¬r x b) ++
        ((l.insertionSort r).dropWhile fun b => ¬r x b) = l.insertionSort r :=
      List.takeWhile_append_dropWhile _ _
    by_cases hx : p x = true
    · have htw : (((l.insertionSort r).takeWhile fun b => ¬r x b).filter p) = [] := by
        rw [List.filter_eq_nil_iff]
        intro b hb hpb
        have hnb := List.mem_takeWhile_imp hb
        simp only [decide_eq_true_eq] at hnb
        exact hnb (hp x b hx hpb)
      rw [htw, List.filter_cons_of_pos hx, List.filter_cons_of_pos hx]
      have : (((l.insertionSort r).dropWhile fun b => ¬r x b).filter p) =
          (l.insertionSort r).filter p := by
        conv_rhs => rw [← hsplit]
        rw [List.filter_append, htw, List.nil_append]
      rw [List.nil_append, this, ih]
    · have hx' : p x = false := by simpa using hx
      rw [List.filter_cons_of_neg (by simp [hx']),
        List.filter_cons_of_neg (by simp [hx'])]
      conv_rhs => rw [← ih]
      conv_rhs => rw [← hsplit]
      rw [List.filter_append]

/-- Effect of one dict insertion on a later bucket lookup. -/
theorem lookupBuckets_addToBuckets (bs : List (String × List Slide))
    (tid0 : String) (s : Slide) (tid : String) :
    lookupBuckets (addToBuckets bs tid0 s) tid =
      if tid = tid0 then some ((lookupBuckets bs tid).getD [] ++ [s])
      else lookupBuckets bs tid := by
  induction bs with
  | nil =>
    by_cases h : tid = tid0
    · subst h; simp [addToBuckets, lookupBuckets]
    · have h' : ¬(tid0 = tid) := fun hh => h hh.symm
      simp [addToBuckets, lookupBuckets, h, h']
  | cons p bs ih =>
    by_cases hp : p.1 = tid0
    · by_cases ht : tid = tid0
      · subst ht
        simp [addToBuckets, lookupBuckets, hp]
      · have ht' : ¬(tid0 = tid) := fun hh => ht hh.symm
        simp [addToBuckets, lookupBuckets, hp, ht, ht']
    · by_cases hpt : p.1 = tid
      · have ht : ¬(tid = tid0) := fun h => hp (hpt ▸ h ▸ rfl)
        simp [addToBuckets, lookupBuckets, hp, hpt, ht]
      · simp [addToBuckets, lookupBuckets, hp, hpt, ih]

/-- The grouping loop: each bucket is exactly the registry slides that
carry its topic id, in registry order. -/
theorem lookupBuckets_foldl (tid : String) :
    ∀ (slides : List Slide) (acc : List (String × List Slide)),
      (lookupBuckets (slides.foldl (fun bs s => addToBuckets bs s.topic s) acc) tid).getD [] =
        (lookupBuckets acc tid).getD [] ++ slides.filter (fun s => s.topic == tid) := by
  intro slides
  induction slides with
  | nil => intro acc; simp
  | cons s rest ih =>
    intro acc
    rw [List.foldl_cons, ih (addToBuckets acc s.topic s),
      lookupBuckets_addToBuckets]
    by_cases h : tid = s.topic
    · subst h
      simp [List.filter_cons]
    · have : ¬(s.topic == tid) = true := by simpa using fun hh => h hh.symm
      simp [h, List.filter_cons, this]

theorem bucketOf_eq_filter (r : Registry) (tid : String) :
    bucketOf r tid = r.slides.filter (fun s => s.topic == tid) := by
  have := lookupBuckets_foldl tid r.slides []
  simpa [bucketOf, slidesByTopic, lookupBuckets] using this

theorem parseLogLines_append : ∀ xs ys : List (List Char),
    parseLogLines (xs ++ ys) = parseLogLines xs ++ parseLogLines ys := by
  intro xs ys
  induction xs with
  | nil => rfl
  | cons line rest ih =>
    by_cases hline : line = []
    · simp [parseLogLines, hline, ih]
    · cases hp : parseLine line <;>
        simp [parseLogLines, hline, hp, ih]

theorem parseLine_eq_none (line : List Char)
    (h : (pySplit '|' 2 line).length ≠ 3) : parseLine line = none := by
  rcases hs : pySplit '|' 2 line with _ | ⟨a, _ | ⟨b, _ | ⟨c, _ | ⟨d, l⟩⟩⟩⟩ <;>
    simp_all [parseLine]

theorem parseLine_eq_some (line : List Char) (a b c : List Char)
    (h : pySplit '|' 2 line = [a, b, c]) :
    parseLine line = some ⟨String.mk a, String.mk b, String.mk c⟩ := by
  simp [parseLine, h]

theorem tdRead_tdWrite : ∀ (td : TempDir) (name : String) (bytes : List UInt8),
    tdRead (tdWrite td name bytes) name = bytes := by
  intro td name bytes
  induction td with
  | nil => simp [tdWrite, tdRead]
  | cons p rest ih =>
    by_cases h : p.1 = name
    · simp [tdWrite, tdRead, h]
    · simp [tdWrite, tdRead, h, ih]

theorem tdCleanup_eq_nil : ∀ td : TempDir, tdCleanup td = [] := by
  intro td
  induction td with
  | nil => rfl
  | cons p rest ih =>
    show ((p :: rest).map Prod.fst).foldl tdUnlink (p :: rest) = []
    rw [List.map_cons, List.foldl_cons]
    have hstep : tdUnlink (p :: rest) p.1 = rest := by
      simp [tdUnlink]
    rw [hstep]
    exact ih

theorem extractVersions_all_success (gitShow : String → Option (List UInt8)) :
    ∀ (history : List Revision) (i : Nat) (td : TempDir),
      (∀ rev ∈ history, gitShow rev.commit ≠ none) →
      (extractVersions gitShow i td history).2 =
        (history.enumFrom i).map (fun p => mkVersion gitShow p.1 p.2) := by
  intro history
  induction history with
  | nil => intro i td _; rfl
  | cons rev rest ih =>
    intro i td hs
    obtain ⟨bs, hbs⟩ : ∃ bs, gitShow rev.commit = some bs := by
      cases h : gitShow rev.commit with
      | none => exact absurd h (hs rev (List.mem_cons_self _ _))
      | some bs => exact ⟨bs, rfl⟩
    simp only [extractVersions, extract_figure_version, hbs, if_pos, List.enumFrom,
      List.map_cons]
    rw [tdRead_tdWrite, ih (i + 1) _ (fun r hr => hs r (List.mem_cons_of_mem _ hr))]
    simp [mkVersion, hbs]

theorem extractVersions_all_fail (gitShow : String → Option (List UInt8)) :
    ∀ (history : List Revision) (i : Nat) (td : TempDir),
      (∀ rev ∈ history, gitShow rev.commit = none) →
      extractVersions gitShow i td history = (td, []) := by
  intro history
  induction history with
  | nil => intro i td _; rfl
  | cons rev rest ih =>
    intro i td hs
    have h0 : gitShow rev.commit = none := hs rev (List.mem_cons_self _ _)
    simp only [extractVersions, extract_figure_version, h0]
    exact ih (i + 1) td (fun r hr => hs r (List.mem_cons_of_mem _ hr))

/-! ## Claim theorems -/

/-- C2, counterexample. The claim says a history query that fails for
any reason — explicitly including "backend unavailable" — yields an
empty list with no propagated error. The `except` clause of
`get_figure_history` names only `subprocess.CalledProcessError`, while
an unavailable backend executable makes `subprocess.run` raise
`FileNotFoundError`, which therefore propagates to the caller instead
of producing `[]`. -/
theorem history_launch_failure_counterexample :
    get_figure_history GitLogResult.launchFailure = Except.error () := rfl

/-- C2, amended: when the history query process runs and exits with a
nonzero status (path untracked outside a repository, or any other `git
log` failure), `get_figure_history` returns the empty list and
propagates no error; a zero-exit run never errors either (its stdout is
parsed, empty output giving the empty list). Only a failure to launch
the backend process at all escapes the handler. -/
theorem history_failure_amended :
    get_figure_history GitLogResult.exitFailure = Except.ok [] ∧
    (∀ stdout, get_figure_history (GitLogResult.ok stdout) =
      Except.ok (parseGitLogOutput stdout)) ∧
    get_figure_history (GitLogResult.ok "") = Except.ok [] :=
  ⟨rfl, fun _ => rfl, by rfl⟩

/-- C3: the allocated slide identifier is `<date>_<slug>` with the slug
as specified; a non-colliding candidate is used as is; a colliding
candidate gets the suffix `_k` for the least `k ≥ 2` that is free (so
`_2` first, then `_3`, `_4`, … on further collisions), and the result is
not in the existing set; including the spec's worked example. -/
theorem slide_id_allocation (title created : String) (existing : List String) :
    generate_slide_id title created = created ++ "_" ++ slugSpec title
    ∧ (generate_slide_id title created ∉ existing →
        allocateSlideId title created existing = generate_slide_id title created)
    ∧ (generate_slide_id title created ∈ existing →
        ∃ k, 2 ≤ k ∧
          allocateSlideId title created existing =
            generate_slide_id title created ++ "_" ++ pyStr k ∧
          (generate_slide_id title created ++ "_" ++ pyStr k) ∉ existing ∧
          ∀ j, 2 ≤ j → j < k →
            (generate_slide_id title created ++ "_" ++ pyStr j) ∈ existing)
    ∧ generate_slide_id "User Distribution" "2024-01-15" = "2024-01-15_user_distribution"
    ∧ allocateSlideId "User Distribution" "2024-01-15" ["2024-01-15_user_distribution"] =
        "2024-01-15_user_distribution_2" := by
  refine ⟨rfl, ?_, ?_, by decide, by decide⟩
  · intro hfree
    simp [allocateSlideId, hfree]
  · intro htaken
    set cand := generate_slide_id title created with hcand
    obtain ⟨j, hj2, hjle, hjfree⟩ := exists_free_counter cand existing
    have hex : ∃ j, 2 ≤ j ∧ j ≤ 2 + (existing.length + 1) ∧
        (cand ++ "_" ++ pyStr j) ∉ existing := ⟨j, hj2, by omega, hjfree⟩
    obtain ⟨h1, h2, h3⟩ := findCounter_correct cand existing (existing.length + 1) 2 hex
    refine ⟨findCounter cand existing (existing.length + 1) 2, h1, ?_, h2, h3⟩
    simp [allocateSlideId, htaken]

/-- C3, witness (hypotheses of the collision conjuncts discharged at
concrete inputs). -/
theorem slide_id_allocation_witness :
    allocateSlideId "My Plot" "2024-02-02" ["other"] =
      generate_slide_id "My Plot" "2024-02-02" :=
  (slide_id_allocation "My Plot" "2024-02-02" ["other"]).2.1 (by decide)

/-- C7: in the history-query parse loop, a (nonempty) line whose
`split("|", 2)` does not have exactly three parts is skipped — removing
it does not change the parse of the remaining lines, so the query is
not aborted — while a line that does split into three parts contributes
exactly one Revision carrying (revision id, timestamp, subject) in that
order; the final conjunct runs the whole parser on an output with a
malformed middle line. -/
theorem log_line_parsing (pre post : List (List Char)) (line : List Char)
    (hne : line ≠ []) :
    ((pySplit '|' 2 line).length ≠ 3 →
      parseLogLines (pre ++ line :: post) = parseLogLines (pre ++ post))
    ∧ (∀ a b c : List Char, pySplit '|' 2 line = [a, b, c] →
        parseLogLines (pre ++ line :: post) =
          parseLogLines pre ++
            ⟨String.mk a, String.mk b, String.mk c⟩ :: parseLogLines post)
    ∧ get_figure_history (GitLogResult.ok "h1|2024|msg\nbad\nh2|2025|a|b") =
        Except.ok [⟨"h1", "2024", "msg"⟩, ⟨"h2", "2025", "a|b"⟩] := by
    refine ⟨?_, ?_, by rfl⟩
    · intro hlen
      rw [parseLogLines_append, parseLogLines_append]
      have : parseLogLines (line :: post) = parseLogLines post := by
        simp [parseLogLines, hne, parseLine_eq_none line hlen]
      rw [this]
    · intro a b c hsplit
      rw [parseLogLines_append]
      simp [parseLogLines, hne, parseLine_eq_some line a b c hsplit]

/-- C7, witness. -/
theorem log_line_parsing_witness :
    parseLogLines ["h1|d|m".data, "bad".data] = parseLogLines ["h1|d|m".data] := by
  have h := (log_line_parsing ["h1|d|m".data] [] "bad".data (by decide)).1 (by decide)
  simpa using h

/-- C9: the two build functions are deterministic — equal registries
(and an equal recent-count) produce byte-identical `slides.qmd` and
`recent.qmd` contents. -/
theorem build_deterministic (r₁ r₂ : Registry) (count : Nat) (h : r₁ = r₂) :
    build_slides_qmd r₁ = build_slides_qmd r₂ ∧
      build_recent_qmd r₁ count = build_recent_qmd r₂ count := by
  subst h; exact ⟨rfl, rfl⟩

/-- C9, witness. -/
theorem build_deterministic_witness :
    build_slides_qmd datesReg = build_slides_qmd datesReg ∧
      build_recent_qmd datesReg 10 = build_recent_qmd datesReg 10 :=
  build_deterministic datesReg datesReg 10 rfl

/-- C4, counterexample. The claim says an undeclared topic id "falls
back to a large sentinel order so that it sorts after every declared
topic". The sentinel is the fixed value 999, so a declared topic with
order 1000 sorts after the undeclared id: in `sentinelReg` the section
of the undeclared `zz_topic` precedes the declared `alpha`. -/
theorem topic_sentinel_counterexample :
    lookupTopic sentinelReg.topics "zz_topic" = none ∧
    sentinelReg.topics = [⟨"alpha", "Alpha", 1000⟩] ∧
    deckTopicOrder sentinelReg = ["zz_topic", "alpha"] :=
  ⟨by decide, by decide, by decide⟩

/-- C4, amended: the deck's topic sections are ordered (ascending,
stably) by effective order — the declared `order` for a declared topic
id, the fixed sentinel 999 for an undeclared one — so an undeclared id
sorts after every declared topic whose order is below 999 (not after
every declared topic unconditionally); an undeclared id's section
carries the derived display name (title-cased id, underscores as
spaces); the declared-topic example and the section emission of
`build_slides_qmd` as stated. -/
theorem topic_ordering_amended (r : Registry) :
    (deckTopicOrder r).Pairwise (topicLE r)
    ∧ deckTopicOrder r ~ (slidesByTopic r.slides).map Prod.fst
    ∧ (∀ tid, lookupTopic r.topics tid = none →
        topicOrderKey r tid = 999 ∧
        topicDisplayName r tid = pyTitle (replaceChar '_' ' ' tid))
    ∧ (∀ tid tid' t', lookupTopic r.topics tid = none →
        lookupTopic r.topics tid' = some t' → t'.order < 999 →
        ¬ [tid, tid'] <+ deckTopicOrder r)
    ∧ deckTopicOrder introResultsA = ["intro", "results"]
    ∧ deckTopicOrder introResultsB = ["intro", "results"]
    ∧ (r.slides ≠ [] → build_slides_qmd r =
        String.intercalate "\n" (slidesHeader (r.title.getD "Research Figures") ++
          ((deckTopicOrder r).map (topicSection r)).flatten)) := by
  have hpw : (deckTopicOrder r).Pairwise (topicLE r) :=
    List.sorted_insertionSort (topicLE r) _
  refine ⟨hpw, List.perm_insertionSort _ _, ?_, ?_, by decide, by decide, ?_⟩
  · intro tid hnone
    exact ⟨by simp [topicOrderKey, hnone], by simp [topicDisplayName, hnone]⟩
  · intro tid tid' t' hnone hsome horder hsub
    have hle : topicLE r tid tid' := List.pairwise_pair.mp (hpw.sublist hsub)
    have h1 : topicOrderKey r tid = 999 := by simp [topicOrderKey, hnone]
    have h2 : topicOrderKey r tid' = t'.order := by simp [topicOrderKey, hsome]
    rw [topicLE, h1, h2] at hle
    omega
  · intro h
    simp [build_slides_qmd, h]

/-- C4, witness. -/
theorem topic_ordering_amended_witness :
    (topicOrderKey mixedReg "zz_x" = 999 ∧
      topicDisplayName mixedReg "zz_x" = pyTitle (replaceChar '_' ' ' "zz_x")) ∧
    ¬ ["zz_x", "t"] <+ deckTopicOrder mixedReg ∧
    build_slides_qmd mixedReg =
      String.intercalate "\n" (slidesHeader (mixedReg.title.getD "Research Figures") ++
        ((deckTopicOrder mixedReg).map (topicSection mixedReg)).flatten) :=
  ⟨(topic_ordering_amended mixedReg).2.2.1 "zz_x" (by decide),
   (topic_ordering_amended mixedReg).2.2.2.1 "zz_x" "t" ⟨"t", "T", 1⟩
     (by decide) (by decide) (by decide),
   (topic_ordering_amended mixedReg).2.2.2.2.2.2 (by decide)⟩

/-- C5: within each topic section of the deck (the bucket of one topic
id), the rendered slide list is sorted by creation date descending, is
a permutation of the bucket, and ties keep encounter order (the date-`d`
slides appear exactly in bucket order, for every date `d`); the bucket
itself is the registry slides with that topic id in registry order; and
the spec's three-date example renders newest first. -/
theorem slides_within_topic_order (r : Registry) (tid : String) :
    (sortSlidesDesc (bucketOf r tid)).Pairwise slideDescLE
    ∧ sortSlidesDesc (bucketOf r tid) ~ bucketOf r tid
    ∧ (∀ d : String,
        (sortSlidesDesc (bucketOf r tid)).filter (fun s => s.created == d) =
          (bucketOf r tid).filter (fun s => s.created == d))
    ∧ bucketOf r tid = r.slides.filter (fun s => s.topic == tid)
    ∧ sortSlidesDesc datesReg.slides =
        [mkSlide "d3" "t" "D3" "2024-03-01", mkSlide "d2" "t" "D2" "2024-02-01",
         mkSlide "d1" "t" "D1" "2024-01-01"] := by
  refine ⟨List.sorted_insertionSort slideDescLE _, List.perm_insertionSort _ _, ?_,
    bucketOf_eq_filter r tid, by decide⟩
  intro d
  apply insertionSort_filter_stable
  intro a b ha hb
  have ha' : a.created = d := by simpa using ha
  have hb' : b.created = d := by simpa using hb
  show strLE b.created a.created = true
  rw [ha', hb']
  exact charListLE_refl _

/-- C6: the recent digest's slide list is the whole registry flattened,
sorted by creation date descending, truncated to the first `count`
(a sorted prefix of the full descending sort, of length
`min count total`); with `count` at least the total it is a descending
permutation of all slides; including the spec's `count=2` /
`count > total` example and the digest document emission. -/
theorem recent_digest_order (r : Registry) (count : Nat) :
    (recentSlides r count).Pairwise slideDescLE
    ∧ (recentSlides r count).length = min count r.slides.length
    ∧ recentSlides r count <+: sortSlidesDesc r.slides
    ∧ (r.slides.length ≤ count → recentSlides r count ~ r.slides)
    ∧ recentSlides datesReg 2 =
        [mkSlide "d3" "t" "D3" "2024-03-01", mkSlide "d2" "t" "D2" "2024-02-01"]
    ∧ recentSlides datesReg 5 =
        [mkSlide "d3" "t" "D3" "2024-03-01", mkSlide "d2" "t" "D2" "2024-02-01",
         mkSlide "d1" "t" "D1" "2024-01-01"]
    ∧ (r.slides ≠ [] → build_recent_qmd r count =
        String.intercalate "\n" (recentHeader ++
          ((recentSlides r count).map
            (fun s => ["## " ++ s.title, ""] ++ renderSlide s)).flatten)) := by
  refine ⟨?_, ?_, List.take_prefix _ _, ?_, by decide, by decide, ?_⟩
  · exact List.Pairwise.sublist (List.take_sublist _ _)
      (List.sorted_insertionSort slideDescLE _)
  · simp [recentSlides, sortSlidesDesc, List.length_take]
  · intro h
    have hlen : (sortSlidesDesc r.slides).length ≤ count := by
      simpa [sortSlidesDesc] using h
    rw [recentSlides, List.take_of_length_le hlen]
    exact List.perm_insertionSort _ _
  · intro h
    simp [build_recent_qmd, h]

/-- C6, witness. -/
theorem recent_digest_order_witness :
    recentSlides datesReg 7 ~ datesReg.slides ∧
    build_recent_qmd datesReg 7 =
      String.intercalate "\n" (recentHeader ++
        ((recentSlides datesReg 7).map
          (fun s => ["## " ++ s.title, ""] ++ renderSlide s)).flatten) :=
  ⟨(recent_digest_order datesReg 7).2.2.2.1 (by decide),
   (recent_digest_order datesReg 7).2.2.2.2.2.2 (by decide)⟩

/-- C1: for every comparison run over a history of at least two
revisions — whatever the `git show` oracle does, i.e. whether every,
some, or no extraction succeeds, and whatever leftover state the temp
directory starts in — the call returns normally and the
`.figure_history_temp` workspace no longer exists on return. -/
theorem cleanup_on_all_paths (gitLog : GitLogResult)
    (gitShow : String → Option (List UInt8)) (fp out : String)
    (initTemp : Option TempDir) (history : List Revision)
    (hh : get_figure_history gitLog = Except.ok history) (h2 : 2 ≤ history.length) :
    ∃ res, generate_comparison gitLog gitShow fp out initTemp = Except.ok res ∧
      res.tempDir = none := by
  have hne : history ≠ [] := by intro h; subst h; simp at h2
  have hlt : ¬(history.length < 2) := by omega
  refine ⟨⟨history,
      (extractVersions gitShow 0 (initTemp.getD []) history).2,
      some (out, generate_comparison_html fp
        (extractVersions gitShow 0 (initTemp.getD []) history).2),
      none,
      ["Generated comparison: " ++ out,
       "Showing " ++ pyStr (extractVersions gitShow 0 (initTemp.getD []) history).2.length ++
         " versions"]⟩, ?_, rfl⟩
  simp only [generate_comparison, hh]
  rw [if_neg hne, if_neg hlt]
  simp [tdCleanup_eq_nil]

/-- C1, witness: a two-revision history where every extraction fails
and the temp directory starts with a leftover file. -/
theorem cleanup_on_all_paths_witness :
    ∃ res, generate_comparison twoRevLog (fun _ => none) "fig.png" "out.html"
        (some [("stale.png", [0])]) = Except.ok res ∧ res.tempDir = none :=
  cleanup_on_all_paths twoRevLog (fun _ => none) "fig.png" "out.html"
    (some [("stale.png", [0])]) twoRevHistory (by rfl) (by decide)

/-- C8: with an empty history or a single revision the comparison
reports and writes nothing (no artifact); with `n ≥ 2` revisions that
all extract, the run succeeds and its artifact embeds exactly `n`
version cards, one per input revision in input order, card `i` carrying
index `i+1`, the commit id truncated to 8 characters, the revision's
timestamp and subject, and the base64 encoding of the extracted bytes
(`mkVersion`), assembled by `generate_comparison_html`. -/
theorem comparison_cards (gitLog : GitLogResult)
    (gitShow : String → Option (List UInt8)) (fp out : String)
    (initTemp : Option TempDir) (history : List Revision)
    (hh : get_figure_history gitLog = Except.ok history) :
    (history = [] →
      generate_comparison gitLog gitShow fp out initTemp =
        Except.ok ⟨history, [], none, initTemp, ["No git history found for " ++ fp]⟩)
    ∧ (history ≠ [] → history.length < 2 →
        generate_comparison gitLog gitShow fp out initTemp =
          Except.ok ⟨history, [], none, initTemp,
            ["Only one version found. Nothing to compare."]⟩)
    ∧ (2 ≤ history.length → (∀ rev ∈ history, gitShow rev.commit ≠ none) →
        ∃ res, generate_comparison gitLog gitShow fp out initTemp = Except.ok res ∧
          res.versions = history.enum.map (fun p => mkVersion gitShow p.1 p.2) ∧
          res.versions.length = history.length ∧
          res.artifact = some (out, generate_comparison_html fp res.versions)) := by
  refine ⟨?_, ?_, ?_⟩
  · intro h
    subst h
    simp [generate_comparison, hh]
  · intro hne hlt
    simp only [generate_comparison, hh]
    rw [if_neg hne, if_pos hlt]
  · intro h2 hsucc
    have hne : history ≠ [] := by intro h; subst h; simp at h2
    have hlt : ¬(history.length < 2) := by omega
    have hvs := extractVersions_all_success gitShow history 0 (initTemp.getD []) hsucc
    refine ⟨⟨history,
        (extractVersions gitShow 0 (initTemp.getD []) history).2,
        some (out, generate_comparison_html fp
          (extractVersions gitShow 0 (initTemp.getD []) history).2),
        none,
        ["Generated comparison: " ++ out,
         "Showing " ++ pyStr (extractVersions gitShow 0 (initTemp.getD []) history).2.length ++
           " versions"]⟩, ?_, ?_, ?_, rfl⟩
    · simp only [generate_comparison, hh]
      rw [if_neg hne, if_neg hlt]
      simp [tdCleanup_eq_nil]
    · simpa [List.enum] using hvs
    · rw [hvs]
      simp [List.enumFrom_length]

/-- C8, witness: a two-revision history whose extractions both succeed. -/
theorem comparison_cards_witness :
    ∃ res, generate_comparison twoRevLog (fun _ => some [1, 2, 3]) "fig.png" "out.html"
        none = Except.ok res ∧
      res.versions = twoRevHistory.enum.map
        (fun p => mkVersion (fun _ => some [1, 2, 3]) p.1 p.2) ∧
      res.versions.length = twoRevHistory.length ∧
      res.artifact = some ("out.html", generate_comparison_html "fig.png" res.versions) :=
  (comparison_cards twoRevLog (fun _ => some [1, 2, 3]) "fig.png" "out.html" none
    twoRevHistory (by rfl)).2.2 (by decide) (by decide)

/-- C10: with at least two revisions but every extraction failing,
`generate_comparison` still writes the comparison document at the
requested filename — a page with zero version cards whose count line
renders `0` (`generate_comparison_html fp []`) — and echoes
"Showing 0 versions" rather than reporting failure; the temp
workspace is still removed. -/
theorem total_extraction_failure_artifact (gitLog : GitLogResult)
    (gitShow : String → Option (List UInt8)) (fp out : String)
    (initTemp : Option TempDir) (history : List Revision)
    (hh : get_figure_history gitLog = Except.ok history) (h2 : 2 ≤ history.length)
    (hfail : ∀ rev ∈ history, gitShow rev.commit = none) :
    generate_comparison gitLog gitShow fp out initTemp =
      Except.ok ⟨history, [], some (out, generate_comparison_html fp []), none,
        ["Generated comparison: " ++ out, "Showing 0 versions"]⟩ := by
  have hne : history ≠ [] := by intro h; subst h; simp at h2
  have hlt : ¬(history.length < 2) := by omega
  have hext := extractVersions_all_fail gitShow history 0 (initTemp.getD []) hfail
  simp only [generate_comparison, hh]
  rw [if_neg hne, if_neg hlt]
  simp [hext, tdCleanup_eq_nil]
  rfl

/-- C10, witness. -/
theorem total_extraction_failure_artifact_witness :
    generate_comparison twoRevLog (fun _ => none) "f.png" "cmp.html" none =
      Except.ok ⟨twoRevHistory, [], some ("cmp.html", generate_comparison_html "f.png" []),
        none, ["Generated comparison: cmp.html", "Showing 0 versions"]⟩ :=
  total_extraction_failure_artifact twoRevLog (fun _ => none) "f.png" "cmp.html" none
    twoRevHistory (by rfl) (by decide) (by decide)

end Slidedeck
